import Mathlib

/-
Verification of the cycle-controller orchestration code
(src/orchestration/prefect_flows.py and src/scripts/skill-entrypoint.py)
against its natural-language specification.

The Python code is shallowly embedded: each relevant function becomes a Lean
definition over explicit data, filesystem probes become boolean parameters,
and the external skill executor becomes an oracle of per-invocation results.
The bounded while loops of development_cycle are written as structural
recursion on the number of remaining passes (remaining = bound + 1 - counter),
which is exactly the number of times the Python condition counter <= bound
can still succeed.
-/

namespace Cicd

-- ===========================================================================
-- Python dictionary primitives
-- ===========================================================================

/-- Python dict indexing d[k] on a string-keyed mapping: raises KeyError
when the key is absent, modelled as Except.error. -/
def dictIndex {α : Type} (d : List (String × α)) (k : String) : Except String α :=
  match d.find? (fun kv => kv.1 = k) with
  | some kv => Except.ok kv.2
  | none => Except.error ("KeyError: " ++ k)

/-- Python d.get(k, default): the default is substituted silently. -/
def dictGetD {α : Type} (d : List (String × α)) (k : String) (default : α) : α :=
  match d.find? (fun kv => kv.1 = k) with
  | some kv => kv.2
  | none => default

/-- Python d.get(k) with no default: None when absent. -/
def dictGetOpt {α : Type} (d : List (String × α)) (k : String) : Option α :=
  (d.find? (fun kv => kv.1 = k)).map (fun kv => kv.2)

/-- Python membership test k in d. -/
def hasKey {α : Type} (d : List (String × α)) (k : String) : Bool :=
  (d.find? (fun kv => kv.1 = k)).isSome

/-- Python dict assignment d[k] = v: after the assignment the mapping sends
k to v and every other key to its previous value.  Modelled by prepending
the new binding and dropping the old one; this is lookup-equivalent to the
CPython dict (iteration order, which no step of the controller uses, is not
preserved). -/
def assocSet (d : List (String × String)) (k v : String) : List (String × String) :=
  (k, v) :: d.filter (fun kv => kv.1 ≠ k)

/-- Python truthiness of an optional integer, as in the test
if pr_number: — None and 0 are falsy. -/
def truthyNat : Option Nat → Bool
  | none => false
  | some n => n != 0

/-- Python a or b for an optional string a, as in checkout_branch or branch:
falls back to b when a is None or empty. -/
def strOrDefault : Option String → String → String
  | none, b => b
  | some s, b => if s = "" then b else s

-- ===========================================================================
-- Workspace provisioning (prefect_flows.py: clone_repo_shallow,
-- development_cycle lines 355-369)
-- ===========================================================================

/-- Arguments of a clone_repo_shallow call (prefect_flows.py lines 19-26). -/
structure CloneArgs where
  branch : String
  checkout_branch : Option String
  pr_number : Option Nat
deriving DecidableEq

/-- Branch passed to git clone --branch by clone_repo_shallow
(prefect_flows.py lines 35-39): clone_branch = branch, overridden to
checkout_branch or branch when pr_number is truthy. -/
def cloneBranch (a : CloneArgs) : String :=
  if truthyNat a.pr_number then strOrDefault a.checkout_branch a.branch
  else a.branch

/-- Filesystem probe of the resume logic (development_cycle lines 356-357):
the recorded workspace_path argument, whether that directory exists, and
whether its .git marker exists. -/
structure WorkspaceProbe where
  recorded : Option String
  dirExists : Bool
  gitMarkerExists : Bool
deriving DecidableEq

/-- Workspace step of development_cycle (lines 355-369): none means the
recorded workspace is reused with no clone; some args means
clone_repo_shallow is invoked with exactly those arguments. -/
def provisionWorkspace (p : WorkspaceProbe) (target_branch main_branch : String)
    (pr_number : Option Nat) : Option CloneArgs :=
  if p.recorded.isSome && p.dirExists && p.gitMarkerExists then none
  else some
    { branch := if truthyNat pr_number then target_branch else main_branch,
      checkout_branch := if target_branch = main_branch then none else some target_branch,
      pr_number := pr_number }

-- ===========================================================================
-- Task manifest (prefect_flows.py lines 371-404, 549-578)
-- ===========================================================================

/-- The git block of the task manifest (lines 376-381). -/
structure GitInfo where
  repo_url : String
  target_branch : String
  main_branch : String
  pr_number : Option Nat
deriving DecidableEq

/-- The task block of the task manifest (lines 382-388). -/
structure TaskInfo where
  title : String
  description : String
  priority : String
deriving DecidableEq

/-- The task-input.yaml manifest as built by development_cycle
(lines 371-400).  The open context mapping is an association list with
dict semantics. -/
structure Manifest where
  task_id : String
  iteration : Nat
  skill : String
  git : GitInfo
  task : TaskInfo
  context : List (String × String)
  max_iterations : Nat
deriving DecidableEq

/-- Reading a context key from the manifest. -/
def lookupContext (m : Manifest) (k : String) : Option String :=
  dictGetOpt m.context k

/-- Manifest update performed by process_user_feedback (lines 561-564):
set context.user_responses_path and write the manifest back. -/
def process_user_feedback_update (m : Manifest) (responsesPath : String) : Manifest :=
  { m with context := assocSet m.context "user_responses_path" responsesPath }

/-- The fresh task_input document that development_cycle builds and persists
on every entry (lines 371-404): context starts as the single key
working_directory and then workspace_path is added (line 402). -/
def initial_task_input (task_id repo_url task_title task_description
    target_branch main_branch priority : String) (pr_number : Option Nat)
    (workspacePath : String) : Manifest :=
  { task_id := task_id,
    iteration := 1,
    skill := "triage",
    git := ⟨repo_url, target_branch, main_branch, pr_number⟩,
    task := ⟨task_title, task_description, priority⟩,
    context := assocSet [("working_directory", "/workspace")] "workspace_path" workspacePath,
    max_iterations := 10 }

/-- The manifest stored at task-input.yaml after process_user_feedback
records the responses path (lines 561-564) and then re-enters
development_cycle (lines 566-578), which rebuilds the document from its
scalar arguments and overwrites the file (lines 371-404).
resolvedWorkspace is the workspace path recorded after provisioning. -/
def manifest_after_resume (m : Manifest) (responsesPath resolvedWorkspace : String) :
    Manifest :=
  initial_task_input
    (process_user_feedback_update m responsesPath).task_id
    (process_user_feedback_update m responsesPath).git.repo_url
    (process_user_feedback_update m responsesPath).task.title
    (process_user_feedback_update m responsesPath).task.description
    (process_user_feedback_update m responsesPath).git.target_branch
    (process_user_feedback_update m responsesPath).git.main_branch
    (process_user_feedback_update m responsesPath).task.priority
    (process_user_feedback_update m responsesPath).git.pr_number
    resolvedWorkspace

-- ===========================================================================
-- Output collection of the skill entrypoint (skill-entrypoint.py 163-182)
-- and the triage read of the controller (prefect_flows.py 407-424)
-- ===========================================================================

/-- Expected output files per skill (skill-entrypoint.py lines 169-175). -/
def expected_output_files (skill : String) : List String :=
  if skill = "triage" then ["triage-plan.yaml", "feedback.md"]
  else if skill = "execute" then ["state.md", "feedback.md"]
  else if skill = "pre-verify" then ["validation-strategy.md"]
  else if skill = "verify" then ["verification-results.md"]
  else if skill = "devils-advocate" then ["assumption-analysis.md", "recommended-fix.md"]
  else []

/-- SkillRunner.collect_outputs (skill-entrypoint.py lines 163-182): each
expected file is included only when it exists on disk; a missing file is
silently omitted from the outputs mapping. -/
def collect_outputs (skill : String) (fileExists : String → Bool)
    (readFile : String → String) : List (String × String) :=
  ((expected_output_files skill).filter (fun f => fileExists f)).map
    (fun f => (f, readFile f))

/-- Exit code of the skill entrypoint (skill-entrypoint.py lines 244-250):
it depends only on the claude process status, not on whether the expected
output files were produced. -/
def entrypoint_exit_code (claudeStatus : String) : Nat :=
  if claudeStatus = "success" then 0 else 1

/-- Routing decision taken from the triage result by development_cycle. -/
inductive TriageRoute
  | suspend
  | trivialPath
  | executeLoopEntry
deriving DecidableEq

/-- How development_cycle reads a successful triage result (lines 407-424):
a feedback key suspends; otherwise the triage-plan value is read with
.get and defaulted to an empty mapping when absent, and its decision key is
read with .get; decision trivial selects the direct pass.  Values of the
outputs mapping are modelled as parsed key/value documents. -/
def readTriageResult (outputs : List (String × List (String × String))) : TriageRoute :=
  if hasKey outputs "feedback" then TriageRoute.suspend
  else if dictGetOpt (dictGetD outputs "triage-plan" []) "decision" = some "trivial" then
    TriageRoute.trivialPath
  else TriageRoute.executeLoopEntry

-- ===========================================================================
-- run_skill_in_container and its Prefect retry decorator
-- (prefect_flows.py lines 103-172)
-- ===========================================================================

/-- Process-level outcome of one docker run attempt: the subprocess call
either exceeds its timeout (subprocess raises TimeoutExpired, line 142) or
terminates with a return code and, on success, parsed output files. -/
inductive ProcOutcome
  | timeout
  | exit (returncode : Int) (outputs : List (String × String))
deriving DecidableEq

/-- The structured result returned by run_skill_in_container on success
(lines 167-172); the wall-clock duration field is omitted as pure telemetry. -/
structure SkillResult where
  status : String
  outputs : List (String × String)
  skill : String
deriving DecidableEq

/-- Body of run_skill_in_container (lines 126-172): a timeout propagates as
an exception, a nonzero return code raises (lines 146-155), and otherwise
the parsed outputs are returned with transport status success.  A semantic
failure that the skill reports inside its own output files is still a
success at this level. -/
def run_skill_body (skill_name : String) (p : ProcOutcome) :
    Except String SkillResult :=
  match p with
  | ProcOutcome.timeout => Except.error ("TimeoutExpired: " ++ skill_name)
  | ProcOutcome.exit code outs =>
    if code = 0 then Except.ok ⟨"success", outs, skill_name⟩
    else Except.error ("Skill " ++ skill_name ++ " failed")

/-- The retries argument of the task decorator on line 103. -/
def task_retries : Nat := 1

/-- The retry_delay_seconds argument of the task decorator on line 103:
the fixed delay between the failed attempt and its retry. -/
def retry_delay_seconds : Nat := 10

/-- Contract of the Prefect task decorator wrapping run_skill_in_container
(line 103): a raised exception triggers a re-run after the fixed delay, at
most retries further times; a returned value ends the task.  The pair holds
the final result and the number of attempts performed.  Prefect itself is an
external collaborator; only the decorator arguments live in the source. -/
def prefect_run_with_retries {α : Type} (attempt : Nat → Except String α) :
    Nat → Nat → Except String α × Nat
  | i, 0 => (attempt i, i + 1)
  | i, r+1 =>
    match attempt i with
    | Except.ok a => (Except.ok a, i + 1)
    | Except.error _ => prefect_run_with_retries attempt (i+1) r

/-- run_skill_in_container as deployed: the body under its retry decorator.
proc gives the process-level outcome of each attempt. -/
def run_skill_in_container (skill_name : String) (proc : Nat → ProcOutcome) :
    Except String SkillResult × Nat :=
  prefect_run_with_retries (fun i => run_skill_body skill_name (proc i)) 0 task_retries

-- ===========================================================================
-- The cycle controller (development_cycle, prefect_flows.py lines 406-531)
-- over structured skill results
-- ===========================================================================

/-- Parsed feedback artifact of an execute pass (lines 439-443). -/
structure ExecFeedback where
  has_blocking_questions : Bool
deriving DecidableEq

/-- Parsed state artifact of an execute pass: the status string and the
truthiness of its next_iteration_needed key (lines 446, 451). -/
structure ExecState where
  status : String
  next_iteration_needed : Bool
deriving DecidableEq

/-- Result of one execute invocation: the state artifact and the feedback
artifact when present. -/
structure ExecResult where
  state : ExecState
  feedback : Option ExecFeedback
deriving DecidableEq

/-- Lines 439-443: the pass blocks when a feedback artifact is present and
its has_blocking_questions key is truthy. -/
def blockingQuestions (r : ExecResult) : Bool :=
  match r.feedback with
  | some f => f.has_blocking_questions
  | none => false

/-- Parsed verification-results artifact (lines 477-484). -/
structure VerificationResults where
  status : String
  requires_devils_advocate : Bool
deriving DecidableEq

/-- Parsed assumption-analysis artifact of the devils-advocate skill
(lines 492-498).  The confidence score is a rational in the unit interval. -/
structure AssumptionAnalysis where
  root_cause_found : Bool
  confidence : ℚ
  recommended_action : Option String
deriving DecidableEq

/-- The comparison confidence at least 0.85 of line 494, stated
denominator-cleared so that it is kernel-decidable; the lemma
confidenceMeetsBar_iff identifies it with 85/100 at most c. -/
def confidenceMeetsBar (c : ℚ) : Bool :=
  decide ((85 : Int) * c.den ≤ 100 * c.num)

/-- The full condition guarding the automatic fix (lines 494-498):
root cause found, confidence at least 0.85, and recommended action
auto_fix. -/
def autoFixCondition (a : AssumptionAnalysis) : Bool :=
  a.root_cause_found && confidenceMeetsBar a.confidence
    && decide (a.recommended_action = some "auto_fix")

/-- Results of the external skill invocations, supplied by the isolated
executor: execRes is indexed by the ordinal of the execute invocation,
verifyRes by the verify attempt number, daRes by the ordinal of the
devils-advocate invocation. -/
structure SkillResults where
  execRes : Nat → ExecResult
  verifyRes : Nat → VerificationResults
  daRes : Nat → AssumptionAnalysis

/-- One observable skill invocation of the controller, with the counter
value it was invoked at. -/
inductive Event
  | execCall (iteration : Nat)
  | verifyCall (attempt : Nat)
  | daCall (attempt : Nat)
deriving DecidableEq

/-- Exit of the execute loop, carrying the value of the iteration counter
at the point the loop exits. -/
inductive ExecExit
  | suspend (iteration : Nat)
  | stalled (iteration : Nat)
  | completedAt (iteration : Nat)
  | exhausted (iteration : Nat)
deriving DecidableEq

/-- The execute loop (lines 427-459).  The Python loop
while iteration <= max_iterations is run with remaining =
max_iterations + 1 - iteration passes still permitted; k is the ordinal of
the next execute invocation (the trivial path already consumed ordinal 0
when it was taken).  Checks appear in source order: blocking feedback
(439-443), completed (446-448), next_iteration_needed (451-453). -/
def execute_loop (sr : SkillResults) (k iteration : Nat) :
    Nat → ExecExit × List Event
  | 0 => (ExecExit.exhausted iteration, [])
  | r+1 =>
    if blockingQuestions (sr.execRes k) then
      (ExecExit.suspend iteration, [Event.execCall iteration])
    else if (sr.execRes k).state.status = "completed" then
      (ExecExit.completedAt iteration, [Event.execCall iteration])
    else if (sr.execRes k).state.next_iteration_needed = false then
      (ExecExit.stalled iteration, [Event.execCall iteration])
    else
      ((execute_loop sr (k+1) (iteration+1) r).1,
        Event.execCall iteration :: (execute_loop sr (k+1) (iteration+1) r).2)

/-- Exit of the verify loop, carrying the attempt counter at the exit
point. -/
inductive VerifyExit
  | passed (attempt : Nat)
  | awaitUser (attempt : Nat)
  | exhausted (attempt : Nat)
deriving DecidableEq

/-- The verify loop (lines 468-529).  remaining = max_verify_attempts + 1 -
attempt; d is the ordinal of the next devils-advocate invocation; iteration
is the execute iteration counter carried into the loop, incremented by the
automatic-fix path (lines 507-510) whose execute invocation result is
discarded by the source.  Checks appear in source order: passed (479-481),
the devils-advocate gate attempt at least 3 and requires_devils_advocate
truthy (484), the auto-fix condition (494-514), otherwise plain retry
(521-525). -/
def verify_loop (sr : SkillResults) (d attempt iteration : Nat) :
    Nat → VerifyExit × List Event
  | 0 => (VerifyExit.exhausted attempt, [])
  | r+1 =>
    if (sr.verifyRes attempt).status = "passed" then
      (VerifyExit.passed attempt, [Event.verifyCall attempt])
    else if 3 ≤ attempt ∧ (sr.verifyRes attempt).requires_devils_advocate = true then
      if autoFixCondition (sr.daRes d) then
        ((verify_loop sr (d+1) (attempt+1) (iteration+1) r).1,
          Event.verifyCall attempt :: Event.daCall attempt
            :: Event.execCall (iteration+1)
            :: (verify_loop sr (d+1) (attempt+1) (iteration+1) r).2)
      else (VerifyExit.awaitUser attempt, [Event.verifyCall attempt, Event.daCall attempt])
    else
      ((verify_loop sr d (attempt+1) iteration r).1,
        Event.verifyCall attempt :: (verify_loop sr d (attempt+1) iteration r).2)

/-- Terminal or suspend outcome returned by development_cycle (line 347). -/
inductive Outcome
  | completed
  | awaiting_user_input
  | failed
  | escalated
deriving DecidableEq

/-- The execute-loop bound (lines 398, 428). -/
def max_iterations : Nat := 10

/-- The verify-loop bound (line 469). -/
def max_verify_attempts : Nat := 5

/-- Outcome of the verify-loop exit: passed returns completed (481),
the non-auto-fix analysis path returns awaiting_user_input (518), and
exhausting the attempts returns escalated (527-529). -/
def verify_outcome : VerifyExit → Outcome
  | VerifyExit.passed _ => Outcome.completed
  | VerifyExit.awaitUser _ => Outcome.awaiting_user_input
  | VerifyExit.exhausted _ => Outcome.escalated

/-- Outcome of a non-completed execute-loop exit: blocking questions return
awaiting_user_input (443), a stalled pass returns escalated (453), and
bound exhaustion returns failed (457-459); a completed exit continues to
verification. -/
def exec_outcome : ExecExit → Option Outcome
  | ExecExit.suspend _ => some Outcome.awaiting_user_input
  | ExecExit.stalled _ => some Outcome.escalated
  | ExecExit.exhausted _ => some Outcome.failed
  | ExecExit.completedAt _ => none

/-- The iteration counter value carried by an execute-loop exit. -/
def exit_iteration : ExecExit → Nat
  | ExecExit.suspend i => i
  | ExecExit.stalled i => i
  | ExecExit.completedAt i => i
  | ExecExit.exhausted i => i

/-- The controller from the execute loop onward (lines 426-531): run the
execute loop from iteration 1; on a completed exit run pre-verify once
(line 463, no branching) and then the verify loop from attempt 1 with the
final execute iteration. -/
def run_from_execute (sr : SkillResults) (k : Nat) : Outcome × List Event :=
  match exec_outcome (execute_loop sr k 1 max_iterations).1 with
  | some o => (o, (execute_loop sr k 1 max_iterations).2)
  | none =>
    (verify_outcome (verify_loop sr 0 1
        (exit_iteration (execute_loop sr k 1 max_iterations).1) max_verify_attempts).1,
      (execute_loop sr k 1 max_iterations).2
        ++ (verify_loop sr 0 1
            (exit_iteration (execute_loop sr k 1 max_iterations).1) max_verify_attempts).2)

/-- The controller after triage (lines 406-531): a triage feedback artifact
suspends (410-412); the trivial decision runs one direct pass at iteration 1
(417-424) and terminates completed when that pass reports completed,
otherwise it falls through into the execute loop with a fresh invocation;
any other decision enters the execute loop directly. -/
def development_cycle_run (sr : SkillResults) (triage : TriageRoute) :
    Outcome × List Event :=
  match triage with
  | TriageRoute.suspend => (Outcome.awaiting_user_input, [])
  | TriageRoute.trivialPath =>
    if (sr.execRes 0).state.status = "completed" then
      (Outcome.completed, [Event.execCall 1])
    else
      ((run_from_execute sr 1).1, Event.execCall 1 :: (run_from_execute sr 1).2)
  | TriageRoute.executeLoopEntry => run_from_execute sr 0

/-- The iteration numbers of the execute invocations in a trace. -/
def execIterations (tr : List Event) : List Nat :=
  tr.filterMap (fun e =>
    match e with
    | Event.execCall i => some i
    | _ => none)

/-- Reading the state artifact of an execute result, line 436 and line 423:
Python indexing, KeyError when absent. -/
def read_exec_state {α : Type} (outputs : List (String × α)) : Except String α :=
  dictIndex outputs "state"

/-- Reading the verification-results artifact, line 477: Python indexing,
KeyError when absent. -/
def read_verification_results {α : Type} (outputs : List (String × α)) :
    Except String α :=
  dictIndex outputs "verification-results"

/-- Reading the assumption-analysis artifact, line 492: Python indexing,
KeyError when absent. -/
def read_assumption_analysis {α : Type} (outputs : List (String × α)) :
    Except String α :=
  dictIndex outputs "assumption-analysis"

-- ===========================================================================
-- Helper lemmas
-- ===========================================================================

/-- Identification of the denominator-cleared confidence test with the
source comparison confidence at least 0.85. -/
theorem confidenceMeetsBar_iff (c : ℚ) :
    confidenceMeetsBar c = true ↔ (85:ℚ)/100 ≤ c := by
  unfold confidenceMeetsBar
  rw [decide_eq_true_iff]
  rw [div_le_iff₀ (by norm_num : (0:ℚ) < 100)]
  conv_rhs => rw [← Rat.num_div_den c]
  rw [div_mul_eq_mul_div, le_div_iff₀ (by exact_mod_cast c.pos : (0:ℚ) < (c.den : ℚ))]
  constructor
  · intro h
    have h2 : ((85 * c.den : Int) : ℚ) ≤ ((100 * c.num : Int) : ℚ) := by exact_mod_cast h
    push_cast at h2 ⊢
    linarith
  · intro h
    have h2 : ((85 * c.den : Int) : ℚ) ≤ ((100 * c.num : Int) : ℚ) := by push_cast; linarith
    exact_mod_cast h2

/-- Three-way unbundling of the auto-fix condition. -/
theorem autoFixCondition_iff (a : AssumptionAnalysis) :
    autoFixCondition a = true ↔
      a.root_cause_found = true ∧ (85:ℚ)/100 ≤ a.confidence
        ∧ a.recommended_action = some "auto_fix" := by
  unfold autoFixCondition
  rw [Bool.and_eq_true, Bool.and_eq_true, decide_eq_true_iff, confidenceMeetsBar_iff]
  tauto

/-- Looking up a key right after dict assignment yields the assigned
value. -/
theorem find?_assocSet (k v : String) (d : List (String × String)) :
    (assocSet d k v).find? (fun kv => kv.1 = k) = some (k, v) := by
  simp [assocSet, List.find?_cons]

/-- Dropping the bindings of one key leaves lookups of any other key
unchanged. -/
theorem find?_filter_ne (k j : String) (hjk : j ≠ k) :
    ∀ d : List (String × String),
      (d.filter (fun kv => kv.1 ≠ k)).find? (fun kv => kv.1 = j)
        = d.find? (fun kv => kv.1 = j) := by
  intro d
  induction d with
  | nil => rfl
  | cons a d ih =>
    have hkj : ¬ (k = j) := fun h => hjk h.symm
    by_cases hak : a.1 = k
    · have h2 : ¬ (a.1 = j) := fun h => hjk (by rw [← h, hak])
      simp only [List.filter_cons, List.find?_cons, ne_eq, decide_not] at ih ⊢
      simp [hak, h2, hkj, ih]
    · by_cases haj : a.1 = j
      · simp only [List.filter_cons, List.find?_cons, ne_eq, decide_not] at ih ⊢
        simp [hak, haj, hjk]
      · simp only [List.filter_cons, List.find?_cons, ne_eq, decide_not] at ih ⊢
        simp [hak, haj, hkj, ih]

/-- Looking up any other key after dict assignment yields the previous
value. -/
theorem find?_assocSet_ne (k v j : String) (d : List (String × String))
    (hjk : j ≠ k) :
    (assocSet d k v).find? (fun kv => kv.1 = j)
      = d.find? (fun kv => kv.1 = j) := by
  unfold assocSet
  rw [List.find?_cons_of_neg _ (by simp; exact fun h => hjk h.symm)]
  exact find?_filter_ne k j hjk d

-- ===========================================================================
-- Claim theorems
-- ===========================================================================

/-- C1 counterexample: a recorded but invalid workspace of a non-PR resume
is re-provisioned by cloning the main branch, not the recorded target
branch, refuting the claim as stated. -/
theorem workspace_invalid_resume_clones_main :
    (provisionWorkspace ⟨some "/tmp/claude-workspaces/t1", false, false⟩
        "feature-x" "main" none).map cloneBranch = some "main"
    ∧ "main" ≠ "feature-x" := by
  exact ⟨rfl, by decide⟩

/-- C1 amended: a recorded workspace whose directory and .git marker exist
is reused with no clone; otherwise the workspace is re-provisioned by
cloning the recorded target branch when a PR number is recorded, and the
main branch otherwise. -/
theorem workspace_reuse_and_clone_branch (p : WorkspaceProbe)
    (t m : String) (pr : Option Nat) :
    (p.recorded.isSome = true → p.dirExists = true → p.gitMarkerExists = true →
      provisionWorkspace p t m pr = none)
    ∧ ((p.recorded.isSome && p.dirExists && p.gitMarkerExists) = false →
      (provisionWorkspace p t m pr).map cloneBranch
        = some (if truthyNat pr then t else m)) := by
  constructor
  · intro h1 h2 h3
    simp [provisionWorkspace, h1, h2, h3]
  · intro h
    simp only [provisionWorkspace, h, Bool.false_eq_true, if_false, Option.map_some]
    by_cases hpr : truthyNat pr = true
    · by_cases htm : t = m
      · simp [cloneBranch, hpr, htm, strOrDefault]
      · have hso : strOrDefault (some t) t = t := by
          by_cases hs : t = "" <;> simp [strOrDefault, hs]
        simp [cloneBranch, hpr, htm, hso]
    · simp [cloneBranch, hpr]

/-- C1 witness: the theorem applied at a valid recorded workspace and at an
absent workspace of a PR resume. -/
theorem workspace_reuse_and_clone_branch_witness :
    provisionWorkspace ⟨some "/tmp/ws", true, true⟩ "feature-x" "main" none = none
    ∧ (provisionWorkspace ⟨none, false, false⟩ "feature-x" "main" (some 7)).map cloneBranch
        = some (if truthyNat (some 7) then "feature-x" else "main") :=
  ⟨(workspace_reuse_and_clone_branch ⟨some "/tmp/ws", true, true⟩ "feature-x" "main" none).1
      rfl rfl rfl,
   (workspace_reuse_and_clone_branch ⟨none, false, false⟩ "feature-x" "main" (some 7)).2 rfl⟩

/-- C2: process_user_feedback records context.user_responses_path in the
manifest, but re-entering development_cycle rebuilds the manifest from
scratch and the persisted document no longer carries the key, so the next
steps cannot read it. -/
theorem resume_drops_user_responses_path (m : Manifest) (rp ws : String) :
    lookupContext (process_user_feedback_update m rp) "user_responses_path" = some rp
    ∧ (∀ j, j ≠ "user_responses_path" →
        lookupContext (process_user_feedback_update m rp) j = lookupContext m j)
    ∧ lookupContext (manifest_after_resume m rp ws) "user_responses_path" = none := by
  refine ⟨?_, ?_, ?_⟩
  · simp [lookupContext, dictGetOpt, process_user_feedback_update, find?_assocSet]
  · intro j hj
    simp [lookupContext, dictGetOpt, process_user_feedback_update,
      find?_assocSet_ne _ _ _ _ hj]
  · rfl

/-- C2 witness: the theorem applied at a concrete suspended manifest; the
responses path is recorded by the feedback step, survives for the distinct
key workspace_path, and is gone from the rebuilt manifest. -/
theorem resume_drops_user_responses_path_witness :
    lookupContext
        (process_user_feedback_update
          ⟨"t1", 1, "execute", ⟨"https://github.com/o/r.git", "feat", "main", none⟩,
            ⟨"title", "desc", "medium"⟩,
            [("working_directory", "/workspace"), ("workspace_path", "/tmp/w/t1")], 10⟩
          "/artifacts/t1/user-responses.md")
        "user_responses_path" = some "/artifacts/t1/user-responses.md"
    ∧ lookupContext
        (manifest_after_resume
          ⟨"t1", 1, "execute", ⟨"https://github.com/o/r.git", "feat", "main", none⟩,
            ⟨"title", "desc", "medium"⟩,
            [("working_directory", "/workspace"), ("workspace_path", "/tmp/w/t1")], 10⟩
          "/artifacts/t1/user-responses.md" "/tmp/w/t1")
        "user_responses_path" = none :=
  ⟨(resume_drops_user_responses_path
      ⟨"t1", 1, "execute", ⟨"https://github.com/o/r.git", "feat", "main", none⟩,
        ⟨"title", "desc", "medium"⟩,
        [("working_directory", "/workspace"), ("workspace_path", "/tmp/w/t1")], 10⟩
      "/artifacts/t1/user-responses.md" "/tmp/w/t1").1,
   (resume_drops_user_responses_path
      ⟨"t1", 1, "execute", ⟨"https://github.com/o/r.git", "feat", "main", none⟩,
        ⟨"title", "desc", "medium"⟩,
        [("working_directory", "/workspace"), ("workspace_path", "/tmp/w/t1")], 10⟩
      "/artifacts/t1/user-responses.md" "/tmp/w/t1").2.2⟩

/-- C4 counterexample: a triage invocation whose expected artifacts are all
missing still exits successfully from the entrypoint, and the controller
proceeds into the execute loop with the silently defaulted empty plan
instead of failing. -/
theorem missing_triage_plan_not_fatal :
    collect_outputs "triage" (fun _ => false) (fun _ => "") = []
    ∧ entrypoint_exit_code "success" = 0
    ∧ readTriageResult [] = TriageRoute.executeLoopEntry :=
  ⟨rfl, rfl, rfl⟩

/-- C4 amended: the state, verification-results and assumption-analysis
artifacts are read by direct indexing and a missing key raises (fails
loudly); but a missing triage-plan key is silently defaulted to an empty
mapping and routes the task into the execute loop, and the entrypoint omits
missing expected files from the outputs without failing. -/
theorem missing_artifact_handling {α : Type} (souts : List (String × α))
    (outs : List (String × List (String × String))) :
    (hasKey souts "state" = false →
      read_exec_state souts = Except.error ("KeyError: " ++ "state"))
    ∧ (hasKey souts "verification-results" = false →
      read_verification_results souts
        = Except.error ("KeyError: " ++ "verification-results"))
    ∧ (hasKey souts "assumption-analysis" = false →
      read_assumption_analysis souts
        = Except.error ("KeyError: " ++ "assumption-analysis"))
    ∧ (hasKey outs "feedback" = false → hasKey outs "triage-plan" = false →
      readTriageResult outs = TriageRoute.executeLoopEntry) := by
  refine ⟨?_, ?_, ?_, ?_⟩
  · intro h
    have hf : souts.find? (fun kv => kv.1 = "state") = none := by
      simpa [hasKey] using h
    simp [read_exec_state, dictIndex, hf]
  · intro h
    have hf : souts.find? (fun kv => kv.1 = "verification-results") = none := by
      simpa [hasKey] using h
    simp [read_verification_results, dictIndex, hf]
  · intro h
    have hf : souts.find? (fun kv => kv.1 = "assumption-analysis") = none := by
      simpa [hasKey] using h
    simp [read_assumption_analysis, dictIndex, hf]
  · intro hf hp
    have hfind : outs.find? (fun kv => kv.1 = "triage-plan") = none := by
      simpa [hasKey] using hp
    simp [readTriageResult, hf, dictGetD, hfind, dictGetOpt]

/-- C4 witness: the theorem applied at empty output mappings. -/
theorem missing_artifact_handling_witness :
    read_exec_state ([] : List (String × String))
        = Except.error ("KeyError: " ++ "state")
    ∧ readTriageResult [] = TriageRoute.executeLoopEntry :=
  ⟨(missing_artifact_handling ([] : List (String × String)) []).1 rfl,
   (missing_artifact_handling ([] : List (String × String)) []).2.2.2 rfl rfl⟩

/-- C9: a process-level failure of a skill invocation (nonzero exit or
timeout) is retried exactly once after the fixed ten-second delay, the
result of that single retry is final (no second automatic retry, a timeout
of both attempts surfaces the fatal error), and a skill result returned
with exit code zero, including one whose outputs report a semantic failure,
is never retried. -/
theorem skill_invocation_retry_policy (sn : String) (proc : Nat → ProcOutcome) :
    retry_delay_seconds = 10
    ∧ (run_skill_in_container sn proc).2 ≤ task_retries + 1
    ∧ (∀ e, run_skill_body sn (proc 0) = Except.error e →
        run_skill_in_container sn proc = (run_skill_body sn (proc 1), 2))
    ∧ (proc 0 = ProcOutcome.timeout → proc 1 = ProcOutcome.timeout →
        (run_skill_in_container sn proc).1
          = Except.error ("TimeoutExpired: " ++ sn))
    ∧ (∀ outs, proc 0 = ProcOutcome.exit 0 outs →
        run_skill_in_container sn proc = (Except.ok ⟨"success", outs, sn⟩, 1)) := by
  have key : run_skill_in_container sn proc
      = match run_skill_body sn (proc 0) with
        | Except.ok a => (Except.ok a, 1)
        | Except.error _ => (run_skill_body sn (proc 1), 2) := by
    simp only [run_skill_in_container, task_retries, prefect_run_with_retries]
    rcases h : run_skill_body sn (proc 0) with e | a <;>
      simp [prefect_run_with_retries]
  refine ⟨rfl, ?_, ?_, ?_, ?_⟩
  · rw [key]
    rcases run_skill_body sn (proc 0) with e | a <;> simp [task_retries]
  · intro e he
    rw [key, he]
  · intro h0 h1
    rw [key, h0, h1]
    simp [run_skill_body]
  · intro outs h0
    rw [key, h0]
    simp [run_skill_body]

/-- C9 witness: the theorem applied at a doubly timed-out invocation and at
an invocation whose outputs report a semantic verification failure. -/
theorem skill_invocation_retry_policy_witness :
    (run_skill_in_container "verify" (fun _ => ProcOutcome.timeout)).1
        = Except.error ("TimeoutExpired: " ++ "verify")
    ∧ run_skill_in_container "verify"
        (fun _ => ProcOutcome.exit 0 [("verification-results", "status: failed")])
      = (Except.ok ⟨"success", [("verification-results", "status: failed")], "verify"⟩, 1) :=
  ⟨(skill_invocation_retry_policy "verify" (fun _ => ProcOutcome.timeout)).2.2.2.1 rfl rfl,
   (skill_invocation_retry_policy "verify"
      (fun _ => ProcOutcome.exit 0 [("verification-results", "status: failed")])).2.2.2.2
      [("verification-results", "status: failed")] rfl⟩

-- ===========================================================================
-- Helper lemmas on the execute and verify loops
-- ===========================================================================

/-- The execute-loop trace is the consecutive block of iterations starting
at the entry value. -/
theorem execute_loop_trace_shape (sr : SkillResults) :
    ∀ r k i, ∃ n, n ≤ r
      ∧ (execute_loop sr k i r).2 = (List.range' i n).map Event.execCall := by
  intro r
  induction r with
  | zero => intro k i; exact ⟨0, le_rfl, rfl⟩
  | succ r ih =>
    intro k i
    by_cases h1 : blockingQuestions (sr.execRes k) = true
    · exact ⟨1, by omega, by simp [execute_loop, h1, List.range']⟩
    · by_cases h2 : (sr.execRes k).state.status = "completed"
      · exact ⟨1, by omega, by simp [execute_loop, h1, h2, List.range']⟩
      · by_cases h3 : (sr.execRes k).state.next_iteration_needed = false
        · exact ⟨1, by omega, by simp [execute_loop, h1, h2, h3, List.range']⟩
        · obtain ⟨n, hn, htr⟩ := ih (k+1) (i+1)
          refine ⟨n+1, by omega, ?_⟩
          simp [execute_loop, h1, h2, h3, htr, List.range'_succ]

/-- One pass of the execute loop in the continue branch. -/
theorem execute_loop_step_continue (sr : SkillResults) (k i r : Nat)
    (h1 : blockingQuestions (sr.execRes k) = false)
    (h2 : (sr.execRes k).state.status ≠ "completed")
    (h3 : (sr.execRes k).state.next_iteration_needed = true) :
    execute_loop sr k i (r+1)
      = ((execute_loop sr (k+1) (i+1) r).1,
         Event.execCall i :: (execute_loop sr (k+1) (i+1) r).2) := by
  simp [execute_loop, h1, h2, h3]

/-- One pass of the verify loop in the passed branch. -/
theorem verify_loop_step_passed (sr : SkillResults) (d t i r : Nat)
    (h1 : (sr.verifyRes t).status = "passed") :
    verify_loop sr d t i (r+1)
      = (VerifyExit.passed t, [Event.verifyCall t]) := by
  simp [verify_loop, h1]

/-- One pass of the verify loop in the automatic-fix branch. -/
theorem verify_loop_step_autofix (sr : SkillResults) (d t i r : Nat)
    (h1 : (sr.verifyRes t).status ≠ "passed")
    (h2 : 3 ≤ t)
    (h3 : (sr.verifyRes t).requires_devils_advocate = true)
    (h4 : autoFixCondition (sr.daRes d) = true) :
    verify_loop sr d t i (r+1)
      = ((verify_loop sr (d+1) (t+1) (i+1) r).1,
         Event.verifyCall t :: Event.daCall t :: Event.execCall (i+1)
           :: (verify_loop sr (d+1) (t+1) (i+1) r).2) := by
  simp [verify_loop, h1, h2, h3, h4]

/-- One pass of the verify loop in the analysis branch that suspends for a
user decision. -/
theorem verify_loop_step_await (sr : SkillResults) (d t i r : Nat)
    (h1 : (sr.verifyRes t).status ≠ "passed")
    (h2 : 3 ≤ t)
    (h3 : (sr.verifyRes t).requires_devils_advocate = true)
    (h4 : autoFixCondition (sr.daRes d) = false) :
    verify_loop sr d t i (r+1)
      = (VerifyExit.awaitUser t, [Event.verifyCall t, Event.daCall t]) := by
  simp [verify_loop, h1, h2, h3, h4]

/-- One pass of the verify loop in the plain-retry branch. -/
theorem verify_loop_step_plain (sr : SkillResults) (d t i r : Nat)
    (h1 : (sr.verifyRes t).status ≠ "passed")
    (h2 : ¬ (3 ≤ t ∧ (sr.verifyRes t).requires_devils_advocate = true)) :
    verify_loop sr d t i (r+1)
      = ((verify_loop sr d (t+1) i r).1,
         Event.verifyCall t :: (verify_loop sr d (t+1) i r).2) := by
  simp [verify_loop, h1, h2]

/-- Bounds on the iteration counter at the exit of the execute loop. -/
theorem execute_loop_exit_bounds (sr : SkillResults) :
    ∀ r k i,
      i ≤ exit_iteration (execute_loop sr k i r).1
      ∧ exit_iteration (execute_loop sr k i r).1 ≤ i + r
      ∧ (∀ j, (execute_loop sr k i r).1 = ExecExit.exhausted j → j = i + r)
      ∧ (∀ j, ((execute_loop sr k i r).1 = ExecExit.suspend j
            ∨ (execute_loop sr k i r).1 = ExecExit.stalled j
            ∨ (execute_loop sr k i r).1 = ExecExit.completedAt j) → j < i + r) := by
  intro r
  induction r with
  | zero =>
    intro k i
    refine ⟨le_rfl, by simp [execute_loop, exit_iteration], ?_, ?_⟩
    · intro j hj
      simp [execute_loop] at hj
      omega
    · intro j hj
      simp [execute_loop] at hj
  | succ r ih =>
    intro k i
    by_cases h1 : blockingQuestions (sr.execRes k) = true
    · refine ⟨?_, ?_, ?_, ?_⟩ <;>
        simp [execute_loop, h1, exit_iteration]
    · by_cases h2 : (sr.execRes k).state.status = "completed"
      · refine ⟨?_, ?_, ?_, ?_⟩ <;>
          simp [execute_loop, h1, h2, exit_iteration]
      · by_cases h3 : (sr.execRes k).state.next_iteration_needed = false
        · refine ⟨?_, ?_, ?_, ?_⟩ <;>
            simp [execute_loop, h1, h2, h3, exit_iteration]
        · obtain ⟨b1, b2, b3, b4⟩ := ih (k+1) (i+1)
          have h1f : blockingQuestions (sr.execRes k) = false := by
            revert h1; cases blockingQuestions (sr.execRes k) <;> simp
          have h3t : (sr.execRes k).state.next_iteration_needed = true := by
            revert h3; cases (sr.execRes k).state.next_iteration_needed <;> simp
          rw [execute_loop_step_continue sr k i r h1f h2 h3t]
          dsimp only
          refine ⟨by omega, by omega, ?_, ?_⟩
          · intro j hj
            have := b3 j hj
            omega
          · intro j hj
            have := b4 j hj
            omega

/-- When every pass keeps requesting another iteration without blocking or
completing, the execute loop always exhausts its remaining budget. -/
theorem execute_loop_all_continue (sr : SkillResults)
    (hall : ∀ j, blockingQuestions (sr.execRes j) = false
      ∧ (sr.execRes j).state.status ≠ "completed"
      ∧ (sr.execRes j).state.next_iteration_needed = true) :
    ∀ r k i, (execute_loop sr k i r).1 = ExecExit.exhausted (i + r) := by
  intro r
  induction r with
  | zero => intro k i; simp [execute_loop]
  | succ r ih =>
    intro k i
    obtain ⟨h1, h2, h3⟩ := hall k
    have harith : i + 1 + r = i + (r + 1) := by omega
    simp only [execute_loop, h1, h2, h3, Bool.false_eq_true, Bool.true_eq_false,
      if_false]
    rw [← harith]
    exact ih (k+1) (i+1)

/-- The first event of a pass of the execute loop is the execute invocation
at the entry iteration. -/
theorem execute_loop_first_event (sr : SkillResults) (k i r : Nat) :
    ∃ rest, (execute_loop sr k i (r+1)).2 = Event.execCall i :: rest := by
  by_cases h1 : blockingQuestions (sr.execRes k) = true
  · exact ⟨[], by simp [execute_loop, h1]⟩
  · by_cases h2 : (sr.execRes k).state.status = "completed"
    · exact ⟨[], by simp [execute_loop, h1, h2]⟩
    · by_cases h3 : (sr.execRes k).state.next_iteration_needed = false
      · exact ⟨[], by simp [execute_loop, h1, h2, h3]⟩
      · exact ⟨(execute_loop sr (k+1) (i+1) r).2, by simp [execute_loop, h1, h2, h3]⟩

/-- The execute loop emits no devils-advocate event. -/
theorem daCall_not_in_execute_trace (sr : SkillResults) (r k i a : Nat) :
    Event.daCall a ∉ (execute_loop sr k i r).2 := by
  obtain ⟨n, _, htr⟩ := execute_loop_trace_shape sr r k i
  rw [htr]
  simp

/-- Every devils-advocate event of the verify loop occurs at an attempt at
least 3 whose verify result requested the analysis and did not pass. -/
theorem verify_loop_da_events (sr : SkillResults) :
    ∀ r d t i a, Event.daCall a ∈ (verify_loop sr d t i r).2 →
      3 ≤ a ∧ (sr.verifyRes a).requires_devils_advocate = true
        ∧ (sr.verifyRes a).status ≠ "passed" := by
  intro r
  induction r with
  | zero => intro d t i a h; simp [verify_loop] at h
  | succ r ih =>
    intro d t i a h
    by_cases h1 : (sr.verifyRes t).status = "passed"
    · rw [verify_loop_step_passed sr d t i r h1] at h
      simp at h
    · by_cases h2 : 3 ≤ t ∧ (sr.verifyRes t).requires_devils_advocate = true
      · by_cases h3 : autoFixCondition (sr.daRes d) = true
        · rw [verify_loop_step_autofix sr d t i r h1 h2.1 h2.2 h3] at h
          dsimp only at h
          rcases List.mem_cons.mp h with h | h
          · exact absurd h (by simp)
          · rcases List.mem_cons.mp h with h | h
            · have ha : a = t := by simpa using h
              subst ha
              exact ⟨h2.1, h2.2, h1⟩
            · rcases List.mem_cons.mp h with h | h
              · exact absurd h (by simp)
              · exact ih (d+1) (t+1) (i+1) a h
        · have h3f : autoFixCondition (sr.daRes d) = false := by
            revert h3; cases autoFixCondition (sr.daRes d) <;> simp
          rw [verify_loop_step_await sr d t i r h1 h2.1 h2.2 h3f] at h
          rcases List.mem_cons.mp h with h | h
          · exact absurd h (by simp)
          · rcases List.mem_cons.mp h with h | h
            · have ha : a = t := by simpa using h
              subst ha
              exact ⟨h2.1, h2.2, h1⟩
            · simp at h
      · rw [verify_loop_step_plain sr d t i r h1 h2] at h
        dsimp only at h
        rcases List.mem_cons.mp h with h | h
        · exact absurd h (by simp)
        · exact ih d (t+1) i a h

/-- Every verify event of the verify loop lies in the window of remaining
attempts. -/
theorem verify_loop_verify_events (sr : SkillResults) :
    ∀ r d t i a, Event.verifyCall a ∈ (verify_loop sr d t i r).2 →
      t ≤ a ∧ a < t + r := by
  intro r
  induction r with
  | zero => intro d t i a h; simp [verify_loop] at h
  | succ r ih =>
    intro d t i a h
    by_cases h1 : (sr.verifyRes t).status = "passed"
    · rw [verify_loop_step_passed sr d t i r h1] at h
      have ha : a = t := by simpa using h
      omega
    · by_cases h2 : 3 ≤ t ∧ (sr.verifyRes t).requires_devils_advocate = true
      · by_cases h3 : autoFixCondition (sr.daRes d) = true
        · rw [verify_loop_step_autofix sr d t i r h1 h2.1 h2.2 h3] at h
          dsimp only at h
          rcases List.mem_cons.mp h with h | h
          · have ha : a = t := by simpa using h
            omega
          · rcases List.mem_cons.mp h with h | h
            · exact absurd h (by simp)
            · rcases List.mem_cons.mp h with h | h
              · exact absurd h (by simp)
              · have := ih (d+1) (t+1) (i+1) a h
                omega
        · have h3f : autoFixCondition (sr.daRes d) = false := by
            revert h3; cases autoFixCondition (sr.daRes d) <;> simp
          rw [verify_loop_step_await sr d t i r h1 h2.1 h2.2 h3f] at h
          rcases List.mem_cons.mp h with h | h
          · have ha : a = t := by simpa using h
            omega
          · rcases List.mem_cons.mp h with h | h
            · exact absurd h (by simp)
            · simp at h
      · rw [verify_loop_step_plain sr d t i r h1 h2] at h
        dsimp only at h
        rcases List.mem_cons.mp h with h | h
        · have ha : a = t := by simpa using h
          omega
        · have := ih d (t+1) i a h
          omega

/-- Exhaustion of the verify loop: the counter at the exit equals the entry
attempt plus the whole budget, and every attempt of the window ran without
a passed status. -/
theorem verify_loop_exhausted_shape (sr : SkillResults) :
    ∀ r d t i a, (verify_loop sr d t i r).1 = VerifyExit.exhausted a →
      a = t + r
      ∧ (∀ u, t ≤ u → u < t + r →
          Event.verifyCall u ∈ (verify_loop sr d t i r).2
          ∧ (sr.verifyRes u).status ≠ "passed") := by
  intro r
  induction r with
  | zero =>
    intro d t i a h
    have ha : t = a := by simpa [verify_loop] using h
    exact ⟨by omega, fun u hu1 hu2 => absurd hu2 (by omega)⟩
  | succ r ih =>
    intro d t i a h
    by_cases h1 : (sr.verifyRes t).status = "passed"
    · rw [verify_loop_step_passed sr d t i r h1] at h
      simp at h
    · by_cases h2 : 3 ≤ t ∧ (sr.verifyRes t).requires_devils_advocate = true
      · by_cases h3 : autoFixCondition (sr.daRes d) = true
        · rw [verify_loop_step_autofix sr d t i r h1 h2.1 h2.2 h3] at h ⊢
          dsimp only at h ⊢
          obtain ⟨ha, hwin⟩ := ih (d+1) (t+1) (i+1) a h
          refine ⟨by omega, ?_⟩
          intro u hu1 hu2
          rcases Nat.eq_or_lt_of_le hu1 with heq | hlt
          · subst heq
            exact ⟨by simp, h1⟩
          · have hw := hwin u (by omega) (by omega)
            refine ⟨?_, hw.2⟩
            simp only [List.mem_cons]
            exact Or.inr (Or.inr (Or.inr hw.1))
        · have h3f : autoFixCondition (sr.daRes d) = false := by
            revert h3; cases autoFixCondition (sr.daRes d) <;> simp
          rw [verify_loop_step_await sr d t i r h1 h2.1 h2.2 h3f] at h
          simp at h
      · rw [verify_loop_step_plain sr d t i r h1 h2] at h ⊢
        dsimp only at h ⊢
        obtain ⟨ha, hwin⟩ := ih d (t+1) i a h
        refine ⟨by omega, ?_⟩
        intro u hu1 hu2
        rcases Nat.eq_or_lt_of_le hu1 with heq | hlt
        · subst heq
          exact ⟨by simp, h1⟩
        · have hw := hwin u (by omega) (by omega)
          refine ⟨?_, hw.2⟩
          simp only [List.mem_cons]
          exact Or.inr hw.1

/-- The execute invocations of the verify loop are the consecutive
iterations above the value carried into the loop. -/
theorem verify_loop_exec_iterations (sr : SkillResults) :
    ∀ r d t i, ∃ n,
      execIterations (verify_loop sr d t i r).2 = List.range' (i+1) n := by
  intro r
  induction r with
  | zero => intro d t i; exact ⟨0, rfl⟩
  | succ r ih =>
    intro d t i
    by_cases h1 : (sr.verifyRes t).status = "passed"
    · exact ⟨0, by
        rw [verify_loop_step_passed sr d t i r h1]
        simp [execIterations, List.filterMap_cons]⟩
    · by_cases h2 : 3 ≤ t ∧ (sr.verifyRes t).requires_devils_advocate = true
      · by_cases h3 : autoFixCondition (sr.daRes d) = true
        · obtain ⟨n, hn⟩ := ih (d+1) (t+1) (i+1)
          refine ⟨n+1, ?_⟩
          rw [verify_loop_step_autofix sr d t i r h1 h2.1 h2.2 h3]
          dsimp only
          simp only [execIterations, List.filterMap_cons] at hn ⊢
          rw [List.range'_succ]
          exact congrArg (List.cons (i+1)) hn
        · have h3f : autoFixCondition (sr.daRes d) = false := by
            revert h3; cases autoFixCondition (sr.daRes d) <;> simp
          exact ⟨0, by
            rw [verify_loop_step_await sr d t i r h1 h2.1 h2.2 h3f]
            simp [execIterations, List.filterMap_cons]⟩
      · obtain ⟨n, hn⟩ := ih d (t+1) i
        refine ⟨n, ?_⟩
        rw [verify_loop_step_plain sr d t i r h1 h2]
        dsimp only
        simp only [execIterations, List.filterMap_cons] at hn ⊢
        exact hn

/-- The first event of the controller from the execute loop onward is the
execute invocation at iteration 1. -/
theorem run_from_execute_first_event (sr : SkillResults) (k : Nat) :
    ∃ rest, (run_from_execute sr k).2 = Event.execCall 1 :: rest := by
  obtain ⟨rest, hr⟩ := execute_loop_first_event sr k 1 9
  have hr10 : (execute_loop sr k 1 max_iterations).2 = Event.execCall 1 :: rest := hr
  rcases hex : exec_outcome (execute_loop sr k 1 max_iterations).1 with _ | o
  · exact ⟨rest ++ (verify_loop sr 0 1
        (exit_iteration (execute_loop sr k 1 max_iterations).1) max_verify_attempts).2,
      by simp [run_from_execute, hex, hr10]⟩
  · exact ⟨rest, by simp [run_from_execute, hex, hr10]⟩

-- ===========================================================================
-- Claim theorems on the loops and the full controller
-- ===========================================================================

/-- C3: at a verify attempt where the devils-advocate analysis runs, the
extra implementation pass runs exactly when root_cause_found is true, the
confidence is at least 0.85, and the recommended action is auto_fix; when
any one of the three conditions fails the loop exits awaiting user input
with no implementation pass. -/
theorem devils_advocate_autofix_decision (sr : SkillResults) (d t i r : Nat)
    (ht : 3 ≤ t)
    (hs : (sr.verifyRes t).status ≠ "passed")
    (hr : (sr.verifyRes t).requires_devils_advocate = true) :
    (((sr.daRes d).root_cause_found = true ∧ (85:ℚ)/100 ≤ (sr.daRes d).confidence
        ∧ (sr.daRes d).recommended_action = some "auto_fix") →
      verify_loop sr d t i (r+1)
        = ((verify_loop sr (d+1) (t+1) (i+1) r).1,
            Event.verifyCall t :: Event.daCall t :: Event.execCall (i+1)
              :: (verify_loop sr (d+1) (t+1) (i+1) r).2))
    ∧ (¬ ((sr.daRes d).root_cause_found = true ∧ (85:ℚ)/100 ≤ (sr.daRes d).confidence
        ∧ (sr.daRes d).recommended_action = some "auto_fix") →
      verify_loop sr d t i (r+1)
        = (VerifyExit.awaitUser t, [Event.verifyCall t, Event.daCall t])
      ∧ verify_outcome (VerifyExit.awaitUser t) = Outcome.awaiting_user_input) := by
  constructor
  · intro hc
    have hfix : autoFixCondition (sr.daRes d) = true := (autoFixCondition_iff _).mpr hc
    exact verify_loop_step_autofix sr d t i r hs ht hr hfix
  · intro hc
    have hfix : autoFixCondition (sr.daRes d) = false := by
      rcases hb : autoFixCondition (sr.daRes d)
      · rfl
      · exact absurd ((autoFixCondition_iff _).mp hb) hc
    exact ⟨verify_loop_step_await sr d t i r hs ht hr hfix, rfl⟩

/-- C3 witness: the theorem applied at attempt 3 with an analysis reporting
root cause found, confidence 1, and action auto_fix. -/
theorem devils_advocate_autofix_decision_witness :
    verify_loop
        ⟨fun _ => ⟨⟨"completed", false⟩, none⟩,
         fun _ => ⟨"failing", true⟩,
         fun _ => ⟨true, 1, some "auto_fix"⟩⟩ 0 3 1 (2+1)
      = ((verify_loop
            ⟨fun _ => ⟨⟨"completed", false⟩, none⟩,
             fun _ => ⟨"failing", true⟩,
             fun _ => ⟨true, 1, some "auto_fix"⟩⟩ 1 4 2 2).1,
          Event.verifyCall 3 :: Event.daCall 3 :: Event.execCall 2
            :: (verify_loop
                ⟨fun _ => ⟨⟨"completed", false⟩, none⟩,
                 fun _ => ⟨"failing", true⟩,
                 fun _ => ⟨true, 1, some "auto_fix"⟩⟩ 1 4 2 2).2) :=
  (devils_advocate_autofix_decision
      ⟨fun _ => ⟨⟨"completed", false⟩, none⟩,
       fun _ => ⟨"failing", true⟩,
       fun _ => ⟨true, 1, some "auto_fix"⟩⟩ 0 3 1 2
      (by decide) (by decide) rfl).1
    ⟨rfl, (confidenceMeetsBar_iff 1).mp (by decide), rfl⟩

/-- C5 counterexample: with every pass requesting another iteration and
never completing, the execute loop exits with the counter at
max_iterations + 1 = 11, which exceeds max_iterations, refuting the claim
that the counter never exceeds the bound at the exit point. -/
theorem execute_iteration_exceeds_bound_cex :
    (execute_loop
        ⟨fun _ => ⟨⟨"in_progress", true⟩, none⟩,
         fun _ => ⟨"failing", false⟩,
         fun _ => ⟨false, 0, none⟩⟩ 0 1 max_iterations).1
      = ExecExit.exhausted (max_iterations + 1)
    ∧ max_iterations < max_iterations + 1 := by
  exact ⟨by decide, by decide⟩

/-- C5 amended: the iteration counter starts at 1 and never decreases (the
execute invocations of the loop are the consecutive iterations from 1, at
most max_iterations of them, and the automatic-fix passes of the verify
phase continue consecutively upward from the value carried out of the
loop); at the point the execute loop exits the counter is at most
max_iterations + 1, and it exceeds max_iterations exactly on bound
exhaustion, where it equals max_iterations + 1. -/
theorem execute_iteration_monotone_and_bounded (sr : SkillResults) (k i0 : Nat) :
    (∃ n, n ≤ max_iterations
      ∧ (execute_loop sr k 1 max_iterations).2 = (List.range' 1 n).map Event.execCall)
    ∧ 1 ≤ exit_iteration (execute_loop sr k 1 max_iterations).1
    ∧ exit_iteration (execute_loop sr k 1 max_iterations).1 ≤ max_iterations + 1
    ∧ (∀ j, (execute_loop sr k 1 max_iterations).1 = ExecExit.exhausted j →
        j = max_iterations + 1)
    ∧ (∀ j, ((execute_loop sr k 1 max_iterations).1 = ExecExit.suspend j
          ∨ (execute_loop sr k 1 max_iterations).1 = ExecExit.stalled j
          ∨ (execute_loop sr k 1 max_iterations).1 = ExecExit.completedAt j) →
        j ≤ max_iterations)
    ∧ (∃ n, execIterations (verify_loop sr 0 1 i0 max_verify_attempts).2
        = List.range' (i0+1) n) := by
  obtain ⟨b1, b2, b3, b4⟩ := execute_loop_exit_bounds sr max_iterations k 1
  refine ⟨execute_loop_trace_shape sr max_iterations k 1, b1, ?_, ?_, ?_,
    verify_loop_exec_iterations sr max_verify_attempts 0 1 i0⟩
  · have hm : (1 : Nat) + max_iterations = max_iterations + 1 := by omega
    omega
  · intro j hj
    have := b3 j hj
    omega
  · intro j hj
    have := b4 j hj
    omega

/-- C5 witness: the amended theorem applied at a run whose first pass
completes. -/
theorem execute_iteration_monotone_and_bounded_witness :
    exit_iteration (execute_loop
        ⟨fun _ => ⟨⟨"completed", false⟩, none⟩,
         fun _ => ⟨"passed", false⟩,
         fun _ => ⟨true, 1, some "auto_fix"⟩⟩ 0 1 max_iterations).1
      ≤ max_iterations + 1 :=
  (execute_iteration_monotone_and_bounded
      ⟨fun _ => ⟨⟨"completed", false⟩, none⟩,
       fun _ => ⟨"passed", false⟩,
       fun _ => ⟨true, 1, some "auto_fix"⟩⟩ 0 1).2.2.1

/-- C6 counterexample: with every attempt failing and no analysis
requested, the verify loop exits with the attempt counter at
max_verify_attempts + 1 = 6, which exceeds max_verify_attempts, refuting
the claim that the counter never exceeds the bound. -/
theorem verify_attempt_exceeds_bound_cex :
    (verify_loop
        ⟨fun _ => ⟨⟨"in_progress", true⟩, none⟩,
         fun _ => ⟨"failing", false⟩,
         fun _ => ⟨false, 0, none⟩⟩ 0 1 1 max_verify_attempts).1
      = VerifyExit.exhausted (max_verify_attempts + 1)
    ∧ max_verify_attempts < max_verify_attempts + 1
    ∧ verify_outcome (VerifyExit.exhausted (max_verify_attempts + 1))
        = Outcome.escalated := by
  exact ⟨by decide, by decide, rfl⟩

/-- C6 amended: no verify invocation is made with an attempt number above
max_verify_attempts; the attempt counter reaches max_verify_attempts + 1
exactly when the loop exhausts its bound, in which case every attempt of
the window ran without a passed status and the controller returns the
outcome escalated. -/
theorem verify_attempt_bound_and_escalation (sr : SkillResults) (i : Nat) :
    (∀ a, Event.verifyCall a ∈ (verify_loop sr 0 1 i max_verify_attempts).2 →
      1 ≤ a ∧ a ≤ max_verify_attempts)
    ∧ (∀ a, (verify_loop sr 0 1 i max_verify_attempts).1 = VerifyExit.exhausted a →
      a = max_verify_attempts + 1
      ∧ verify_outcome (verify_loop sr 0 1 i max_verify_attempts).1
          = Outcome.escalated
      ∧ (∀ u, 1 ≤ u → u ≤ max_verify_attempts →
          Event.verifyCall u ∈ (verify_loop sr 0 1 i max_verify_attempts).2
          ∧ (sr.verifyRes u).status ≠ "passed")) := by
  constructor
  · intro a ha
    have := verify_loop_verify_events sr max_verify_attempts 0 1 i a ha
    have h5 : (1 : Nat) + max_verify_attempts = max_verify_attempts + 1 := by omega
    omega
  · intro a ha
    obtain ⟨h1, h2⟩ := verify_loop_exhausted_shape sr max_verify_attempts 0 1 i a ha
    refine ⟨by omega, by rw [ha]; rfl, ?_⟩
    intro u hu1 hu2
    exact h2 u hu1 (by omega)

/-- C6 witness: the amended theorem applied at the all-failing run, where
the exit carries the counter value 6. -/
theorem verify_attempt_bound_and_escalation_witness :
    (6 : Nat) = max_verify_attempts + 1
    ∧ verify_outcome (verify_loop
        ⟨fun _ => ⟨⟨"working", true⟩, none⟩,
         fun _ => ⟨"not_passed", false⟩,
         fun _ => ⟨false, 0, none⟩⟩ 0 1 1 max_verify_attempts).1
      = Outcome.escalated :=
  ⟨((verify_attempt_bound_and_escalation
      ⟨fun _ => ⟨⟨"working", true⟩, none⟩,
       fun _ => ⟨"not_passed", false⟩,
       fun _ => ⟨false, 0, none⟩⟩ 1).2 6 (by decide)).1,
   ((verify_attempt_bound_and_escalation
      ⟨fun _ => ⟨⟨"working", true⟩, none⟩,
       fun _ => ⟨"not_passed", false⟩,
       fun _ => ⟨false, 0, none⟩⟩ 1).2 6 (by decide)).2.1⟩

/-- C7: in every run of the controller, a devils-advocate invocation occurs
only at a verify attempt number at least 3 whose verify result flags that
the analysis is required and whose status is not passed. -/
theorem devils_advocate_gating (sr : SkillResults) (tr : TriageRoute) (a : Nat) :
    Event.daCall a ∈ (development_cycle_run sr tr).2 →
      3 ≤ a ∧ (sr.verifyRes a).requires_devils_advocate = true
        ∧ (sr.verifyRes a).status ≠ "passed" := by
  have hrun : ∀ k, Event.daCall a ∈ (run_from_execute sr k).2 →
      3 ≤ a ∧ (sr.verifyRes a).requires_devils_advocate = true
        ∧ (sr.verifyRes a).status ≠ "passed" := by
    intro k hk
    rcases hex : exec_outcome (execute_loop sr k 1 max_iterations).1 with _ | o
    · simp only [run_from_execute, hex] at hk
      rcases List.mem_append.mp hk with h | h
      · exact absurd h (daCall_not_in_execute_trace sr max_iterations k 1 a)
      · exact verify_loop_da_events sr max_verify_attempts 0 1
          (exit_iteration (execute_loop sr k 1 max_iterations).1) a h
    · simp only [run_from_execute, hex] at hk
      exact absurd hk (daCall_not_in_execute_trace sr max_iterations k 1 a)
  intro h
  match tr with
  | TriageRoute.suspend => simp [development_cycle_run] at h
  | TriageRoute.executeLoopEntry =>
    exact hrun 0 (by simpa [development_cycle_run] using h)
  | TriageRoute.trivialPath =>
    by_cases hc : (sr.execRes 0).state.status = "completed"
    · simp [development_cycle_run, hc] at h
    · simp only [development_cycle_run, hc, if_false] at h
      rcases List.mem_cons.mp h with h | h
      · exact absurd h (by simp)
      · exact hrun 1 h

/-- C7 witness: the theorem applied at a run whose verify attempt 3
triggers the analysis. -/
theorem devils_advocate_gating_witness :
    3 ≤ 3
    ∧ ((⟨fun _ => ⟨⟨"completed", false⟩, none⟩,
        fun _ => ⟨"failing", true⟩,
        fun _ => ⟨false, 0, none⟩⟩ : SkillResults).verifyRes 3).requires_devils_advocate
        = true
    ∧ ((⟨fun _ => ⟨⟨"completed", false⟩, none⟩,
        fun _ => ⟨"failing", true⟩,
        fun _ => ⟨false, 0, none⟩⟩ : SkillResults).verifyRes 3).status ≠ "passed" :=
  devils_advocate_gating
    ⟨fun _ => ⟨⟨"completed", false⟩, none⟩,
     fun _ => ⟨"failing", true⟩,
     fun _ => ⟨false, 0, none⟩⟩ TriageRoute.executeLoopEntry 3 (by decide)

/-- C8 counterexample: a pass with blocking questions that neither
completes nor requests another iteration returns awaiting_user_input, not
escalated, because the blocking-feedback check precedes the stall check. -/
theorem stalled_pass_with_blocking_questions_cex :
    (ExecState.mk "in_progress" false).status ≠ "completed"
    ∧ (ExecState.mk "in_progress" false).next_iteration_needed = false
    ∧ (development_cycle_run
        ⟨fun _ => ⟨ExecState.mk "in_progress" false, some ⟨true⟩⟩,
         fun _ => ⟨"failing", false⟩,
         fun _ => ⟨false, 0, none⟩⟩ TriageRoute.executeLoopEntry).1
      = Outcome.awaiting_user_input
    ∧ Outcome.awaiting_user_input ≠ Outcome.escalated := by
  exact ⟨by decide, rfl, by decide, by decide⟩

/-- C8 amended: an execute pass with no blocking feedback whose result is
neither completed nor requesting another iteration exits the loop stalled
with outcome escalated (a stalled first pass makes the whole run
escalated); exhausting all max_iterations passes, each requesting another
iteration without blocking or completing, yields the outcome failed. -/
theorem execute_stall_escalates_and_exhaustion_fails (sr : SkillResults) :
    (∀ k i r, blockingQuestions (sr.execRes k) = false →
      (sr.execRes k).state.status ≠ "completed" →
      (sr.execRes k).state.next_iteration_needed = false →
      execute_loop sr k i (r+1) = (ExecExit.stalled i, [Event.execCall i])
      ∧ exec_outcome (ExecExit.stalled i) = some Outcome.escalated)
    ∧ (∀ k, blockingQuestions (sr.execRes k) = false →
      (sr.execRes k).state.status ≠ "completed" →
      (sr.execRes k).state.next_iteration_needed = false →
      (run_from_execute sr k).1 = Outcome.escalated)
    ∧ ((∀ j, blockingQuestions (sr.execRes j) = false
        ∧ (sr.execRes j).state.status ≠ "completed"
        ∧ (sr.execRes j).state.next_iteration_needed = true) →
      ∀ k, (run_from_execute sr k).1 = Outcome.failed) := by
  have hstep : ∀ k i r, blockingQuestions (sr.execRes k) = false →
      (sr.execRes k).state.status ≠ "completed" →
      (sr.execRes k).state.next_iteration_needed = false →
      execute_loop sr k i (r+1) = (ExecExit.stalled i, [Event.execCall i]) := by
    intro k i r h1 h2 h3
    simp [execute_loop, h1, h2, h3]
  refine ⟨fun k i r h1 h2 h3 => ⟨hstep k i r h1 h2 h3, rfl⟩, ?_, ?_⟩
  · intro k h1 h2 h3
    have h10 : execute_loop sr k 1 max_iterations
        = (ExecExit.stalled 1, [Event.execCall 1]) := hstep k 1 9 h1 h2 h3
    simp [run_from_execute, h10, exec_outcome]
  · intro hall k
    have hex := execute_loop_all_continue sr hall max_iterations k 1
    simp [run_from_execute, hex, exec_outcome]

/-- C8 witness: the amended theorem applied at a run whose first pass
stalls and at a run whose every pass requests another iteration. -/
theorem execute_stall_escalates_and_exhaustion_fails_witness :
    (run_from_execute
        ⟨fun _ => ⟨⟨"blocked", false⟩, none⟩,
         fun _ => ⟨"failing", false⟩,
         fun _ => ⟨false, 0, none⟩⟩ 0).1 = Outcome.escalated
    ∧ (run_from_execute
        ⟨fun _ => ⟨⟨"working", true⟩, none⟩,
         fun _ => ⟨"failing", false⟩,
         fun _ => ⟨false, 0, none⟩⟩ 0).1 = Outcome.failed :=
  by
  have hne1 : ("blocked" : String) ≠ "completed" := by decide
  have hne2 : ("working" : String) ≠ "completed" := by decide
  exact ⟨(execute_stall_escalates_and_exhaustion_fails
      ⟨fun _ => ⟨⟨"blocked", false⟩, none⟩,
       fun _ => ⟨"failing", false⟩,
       fun _ => ⟨false, 0, none⟩⟩).2.1 0 rfl hne1 rfl,
   (execute_stall_escalates_and_exhaustion_fails
      ⟨fun _ => ⟨⟨"working", true⟩, none⟩,
       fun _ => ⟨"failing", false⟩,
       fun _ => ⟨false, 0, none⟩⟩).2.2 (fun j => ⟨rfl, hne2, rfl⟩) 0⟩

/-- C10: a trivially triaged task whose direct pass does not report
completed falls through into the regular execute loop — the outcome and
remaining trace are those of a fresh loop run that discards the trivial
result — and the implementation skill is invoked a second time with
iteration 1. -/
theorem trivial_fallthrough (sr : SkillResults)
    (h : (sr.execRes 0).state.status ≠ "completed") :
    development_cycle_run sr TriageRoute.trivialPath
      = ((run_from_execute sr 1).1, Event.execCall 1 :: (run_from_execute sr 1).2)
    ∧ (development_cycle_run sr TriageRoute.trivialPath).2.take 2
      = [Event.execCall 1, Event.execCall 1] := by
  have hd : development_cycle_run sr TriageRoute.trivialPath
      = ((run_from_execute sr 1).1, Event.execCall 1 :: (run_from_execute sr 1).2) := by
    simp [development_cycle_run, h]
  refine ⟨hd, ?_⟩
  rw [hd]
  obtain ⟨rest, hrest⟩ := run_from_execute_first_event sr 1
  simp [hrest]

/-- C10 witness: the theorem applied at a run whose trivial pass reports an
in-progress status. -/
theorem trivial_fallthrough_witness :
    (development_cycle_run
        ⟨fun _ => ⟨⟨"in_progress", true⟩, none⟩,
         fun _ => ⟨"failing", false⟩,
         fun _ => ⟨false, 0, none⟩⟩ TriageRoute.trivialPath).2.take 2
      = [Event.execCall 1, Event.execCall 1] :=
  (trivial_fallthrough
      ⟨fun _ => ⟨⟨"in_progress", true⟩, none⟩,
       fun _ => ⟨"failing", false⟩,
       fun _ => ⟨false, 0, none⟩⟩ (by decide)).2

end Cicd
